import Mathlib

/-!
Verification of the zathura-note plugin core (src/zathura-note/note.c) against
its natural-language specification.

Conventions of the embedding:
* C doubles and floats are modelled as rationals.  All the properties
  examined here concern comparisons and exact arithmetic on coordinates,
  never rounding behaviour of the machine float format.
* The libplist node tree is the inductive type Plist below.  A data node
  carries the sequence of scalar values that the C code later reads out of
  its byte buffer; the byte-level reinterpretation (element width,
  endianness) is a memory-layout concern outside the embedding.
* The external collaborators (libzip, image codecs, pango, cairo) are
  modelled by flags recording success of their calls and by an explicit
  list of emitted drawing commands.
-/

/-- One node of the deserialized property list, following libplist node
kinds used by note.c (bool, uint, real, string, data, date, array, dict,
uid). -/
inductive Plist where
  | bool : Bool → Plist
  | uint : Nat → Plist
  | real : ℚ → Plist
  | str : String → Plist
  | data : List ℚ → Plist
  | date : Int → Plist
  | array : List Plist → Plist
  | dict : List (String × Plist) → Plist
  | uid : Nat → Plist

/-- Recognizer for reference (UID) nodes, PLIST_IS_UID. -/
def Plist.isUid : Plist → Bool
  | .uid _ => true
  | _ => false

/-- plist_dict_get_item: look a key up in a dict node, first match wins. -/
def plistDictGet : List (String × Plist) → String → Option Plist
  | [], _ => none
  | (k, v) :: rest, key => if k = key then some v else plistDictGet rest key

/-- One navigation instruction handed to plist_access through its variadic
argument list: an array index or a dict key. -/
inductive Step where
  | idx : Nat → Step
  | key : String → Step

/-- The loop body of plist_access (note.c lines 201-251) plus the final
UID resolution after the loop (lines 256-261).  The fuel argument counts
loop iterations; the C loop has no such bound and would spin forever on a
cyclic chain of UID nodes, which the fuel turns into a none result.
Navigation stops with none where the C code would end up with a NULL
current node (missing index, missing key) or where the node kind does not
match the supplied instruction. -/
def accessGo (table : List Plist) : ℕ → Plist → List Step → Option Plist
  | _, current, [] =>
    -- loop exhausted its instructions; resolve current if UID (lines 256-261)
    match current with
    | .uid n => table[n]?
    | c => some c
  | 0, _, _ :: _ => none
  | fuel + 1, current, s :: rest =>
    match current, s with
    | .array xs, .idx n =>
      match xs[n]? with
      | some v => accessGo table fuel v rest
      | none => none
    | .dict es, .key k =>
      match plistDictGet es k with
      | some v => accessGo table fuel v rest
      | none => none
    | .uid n, _ =>
      -- automatic tracing: resolve against the root array, i-- (lines 216-219)
      match table[n]? with
      | some v => accessGo table fuel v (s :: rest)
      | none => none
    | _, _ => none

/-- plist_access (note.c lines 187-270) restricted to pure navigation
steps.  The root passed by every caller is the $objects array, so the
PLIST_IS_ARRAY guard at the top of the C function always passes here. -/
def plist_access (table : List Plist) (fuel : ℕ) (steps : List Step) : Option Plist :=
  accessGo table fuel (Plist.array table) steps

/-- Written from the words of the specification: transparently replace a
Reference by the table entry at its index. -/
def hopRef (table : List Plist) : Plist → Option Plist
  | .uid n => table[n]?
  | p => some p

/-- Written from the words of the specification, for comparison with
plist_access: manually apply the indices and keys in order; a Reference
met before a step is transparently replaced first, and a Reference left
after the last step is hop-resolved exactly once more. -/
def manualResolve (table : List Plist) : Plist → List Step → Option Plist
  | p, [] => hopRef table p
  | p, s :: rest =>
    match hopRef table p with
    | none => none
    | some q =>
      match q, s with
      | .array xs, .idx n =>
        match xs[n]? with
        | some v => manualResolve table v rest
        | none => none
      | .dict es, .key k =>
        match plistDictGet es k with
        | some v => manualResolve table v rest
        | none => none
      | _, _ => none

/-- Well-formed node table: no entry of the $objects table is itself a
Reference, matching the one-reference-per-edge shape of the format (UID
nodes only occur nested inside entries, and always point at a concrete
entry). -/
def wfTable (table : List Plist) : Bool :=
  table.all (fun p => !p.isUid)

theorem wfTable_not_uid {table : List Plist} (h : wfTable table = true)
    {n : ℕ} {q : Plist} (hq : table[n]? = some q) : q.isUid = false := by
  have hmem : q ∈ table := List.getElem?_mem hq
  have := List.all_eq_true.mp h q hmem
  simpa using this

theorem accessGo_eq_manual (table : List Plist) (hwf : wfTable table = true) :
    ∀ (steps : List Step) (current : Plist) (v : Plist) (fuel : ℕ),
      manualResolve table current steps = some v →
      2 * steps.length + 1 ≤ fuel →
      accessGo table fuel current steps = some v := by
  intro steps
  induction steps with
  | nil =>
    intro current v fuel hres _
    cases current <;> simpa [accessGo, manualResolve, hopRef] using hres
  | cons s rest ih =>
    intro current v fuel hres hfuel
    have hfuel1 : 1 ≤ fuel := by omega
    obtain ⟨f, rfl⟩ : ∃ f, fuel = f + 1 := ⟨fuel - 1, by omega⟩
    cases current with
    | array xs =>
      cases s with
      | idx n =>
        simp only [manualResolve, hopRef] at hres
        cases hxs : xs[n]? with
        | none => simp [hxs] at hres
        | some w =>
          simp only [hxs] at hres
          simpa [accessGo, hxs] using ih w v f hres (by simp at hfuel ⊢; omega)
      | key k =>
        simp [manualResolve, hopRef] at hres
    | dict es =>
      cases s with
      | idx n =>
        simp [manualResolve, hopRef] at hres
      | key k =>
        simp only [manualResolve, hopRef] at hres
        cases hes : plistDictGet es k with
        | none => simp [hes] at hres
        | some w =>
          simp only [hes] at hres
          simpa [accessGo, hes] using ih w v f hres (by simp at hfuel ⊢; omega)
    | uid n =>
      simp only [manualResolve, hopRef] at hres
      cases hq : table[n]? with
      | none => simp [hq] at hres
      | some q =>
        simp only [hq] at hres
        have hqnu : q.isUid = false := wfTable_not_uid hwf hq
        have hstep : accessGo table (f + 1) (Plist.uid n) (s :: rest) =
            accessGo table f q (s :: rest) := by
          simp [accessGo, hq]
        rw [hstep]
        obtain ⟨f', rfl⟩ : ∃ f', f = f' + 1 := by
          refine ⟨f - 1, ?_⟩
          simp at hfuel
          omega
        cases q with
        | array xs =>
          cases s with
          | idx m =>
            cases hxs : xs[m]? with
            | none => simp [hxs] at hres
            | some w =>
              simp only [hxs] at hres
              simpa [accessGo, hxs] using ih w v f' hres (by simp at hfuel ⊢; omega)
          | key k => simp at hres
        | dict es =>
          cases s with
          | idx m => simp at hres
          | key k =>
            cases hes : plistDictGet es k with
            | none => simp [hes] at hres
            | some w =>
              simp only [hes] at hres
              simpa [accessGo, hes] using ih w v f' hres (by simp at hfuel ⊢; omega)
        | uid m => simp [Plist.isUid] at hqnu
        | bool b => simp at hres
        | uint u => simp at hres
        | real r => simp at hres
        | str t => simp at hres
        | data d => simp at hres
        | date d => simp at hres
    | bool b => simp [manualResolve, hopRef] at hres
    | uint u => simp [manualResolve, hopRef] at hres
    | real r => simp [manualResolve, hopRef] at hres
    | str t => simp [manualResolve, hopRef] at hres
    | data d => simp [manualResolve, hopRef] at hres
    | date d => simp [manualResolve, hopRef] at hres

/-- Claim C1: over a well-formed node table, plist_access applied to any
navigation path of array-index and map-key steps returns exactly the node
obtained by manually applying the same indices and keys in order, with a
Reference met before a step transparently replaced by the table entry at
its index without consuming a step, and a Reference produced after the
last step hop-resolved exactly once more. -/
theorem c1_plist_access_matches_manual (table : List Plist) (steps : List Step)
    (v : Plist) (fuel : ℕ)
    (hwf : wfTable table = true)
    (hres : manualResolve table (Plist.array table) steps = some v)
    (hfuel : 2 * steps.length + 1 ≤ fuel) :
    plist_access table fuel steps = some v :=
  accessGo_eq_manual table hwf steps (Plist.array table) v fuel hres hfuel

/-- Concrete table exercising a nested dict, a UID edge and an array. -/
def demoTable : List Plist :=
  [Plist.str "$null",
   Plist.dict [("k", Plist.uid 2)],
   Plist.array [Plist.uint 7]]

/-- Concrete navigation path for the witness. -/
def demoSteps : List Step := [Step.idx 1, Step.key "k", Step.idx 0]

theorem c1_witness : plist_access demoTable 9 demoSteps = some (Plist.uint 7) :=
  c1_plist_access_matches_manual demoTable demoSteps (Plist.uint 7) 9
    (by rfl) (by rfl) (by decide)

/-- Terminal extraction for the PLIST_STRING case of plist_access: the C
loop writes the string pointer and its strlen through the two trailing
output arguments. -/
def plist_access_str (table : List Plist) (fuel : ℕ) (steps : List Step) : Option String :=
  match plist_access table fuel steps with
  | some (Plist.str s) => some s
  | _ => none

/-- Terminal extraction for the PLIST_DATA case of plist_access: the data
buffer viewed as the scalar sequence the caller will read from it. -/
def plist_access_scalars (table : List Plist) (fuel : ℕ) (steps : List Step) : Option (List ℚ) :=
  match plist_access table fuel steps with
  | some (Plist.data d) => some d
  | _ => none

/-- The test memcmp(type, "Legacy:13", type_length) == 0 with type_length
equal to strlen(type): the first strlen(type) bytes of the NUL-terminated
literal agree with type exactly when type is a byte prefix of the literal
(a compare running past position 9 meets the literal terminator and
fails). -/
def memcmpStrlen (s lit : String) : Bool :=
  s.data.isPrefixOf lit.data

/-- Navigation path used by plist_page_ratio (note.c lines 316-318);
index 1 is SESSION_OBJECTS_GENERAL_INFO. -/
def ratioSteps : List Step :=
  [Step.idx 1, Step.key "NBNoteTakingSessionDocumentPaperLayoutModelKey",
   Step.key "documentPaperAttributes", Step.key "paperIdentifier"]

/-- plist_page_ratio (note.c lines 310-329).  The default ratio 1.414 is
replaced by 1.3 when the memcmp prefix test against "Legacy:13" passes;
the "Legacy:0" and unknown-identifier branches only log and keep the
default.  When the access fails, type_length stays 0 and the zero-length
memcmp compares equal, so the 1.3 branch is taken. -/
def plist_page_ratio (objects : List Plist) : ℚ :=
  match plist_access_str objects 16 ratioSteps with
  | some s => if memcmpStrlen s "Legacy:13" then 13/10 else 1414/1000
  | none => 13/10

/-- Height derivation in note_document_open (note.c line 503):
height = width * plist_page_ratio(objects). -/
def note_document_height (width : ℚ) (objects : List Plist) : ℚ :=
  width * plist_page_ratio objects

/-- Synthetic node table holding a paper identifier at the path
plist_page_ratio resolves. -/
def mkRatioTable (s : String) : List Plist :=
  [Plist.str "$null",
   Plist.dict [("NBNoteTakingSessionDocumentPaperLayoutModelKey",
     Plist.dict [("documentPaperAttributes",
       Plist.dict [("paperIdentifier", Plist.str s)])])]]

/-- Claim C4, counterexample: the identifier "Legacy:1" is not
"Legacy:13", yet the ratio is 1.3 rather than the claimed default 1.414,
because memcmp is bounded by strlen of the resolved identifier and so
accepts every byte prefix of "Legacy:13". -/
theorem c4_counterexample :
    plist_page_ratio (mkRatioTable "Legacy:1") = 13/10 ∧
      "Legacy:1" ≠ "Legacy:13" := by
  constructor
  · rfl
  · decide

/-- Claim C4 as amended: the ratio is 1.3 exactly when the resolved paper
identifier is a byte prefix of "Legacy:13" (this includes "Legacy:13"
itself, e.g. "Legacy:1" and the empty string), and the default 1.414
otherwise, in particular for "Legacy:0"; page height is width times the
ratio, so identifier "Legacy:13" with width 500 gives height 650. -/
theorem c4_amended :
    (∀ s : String, plist_page_ratio (mkRatioTable s) =
      if s.data.isPrefixOf "Legacy:13".data then 13/10 else 1414/1000) ∧
    plist_page_ratio (mkRatioTable "Legacy:0") = 1414/1000 ∧
    note_document_height 500 (mkRatioTable "Legacy:13") = 650 := by
  refine ⟨fun s => ?_, by rfl, ?_⟩
  · rfl
  · have h : plist_page_ratio (mkRatioTable "Legacy:13") = 13/10 := by rfl
    rw [note_document_height, h]
    norm_num

/-- The maximum-y scan of plist_page_count (note.c lines 302-305): walk
the flat curve point array two floats at a time and keep the largest
y-coordinate seen, starting from 0.  On a list of odd length the C loop
would read one float past the buffer; curve point data always comes in
x,y pairs, so that case is left as the accumulator. -/
def curvesMaxY : List ℚ → ℚ → ℚ
  | [], m => m
  | [_], m => m
  | _ :: y :: rest, m => curvesMaxY rest (if y > m then y else m)

/-- The C cast (int)q: truncation toward zero. -/
def c_int_trunc (q : ℚ) : ℤ :=
  q.num.tdiv q.den

/-- Navigation path used by plist_page_count (note.c lines 298-299);
index 2 is SESSION_OBJECTS_GLOBAL_TEXT_STORE. -/
def curvesSteps : List Step :=
  [Step.idx 2, Step.key "Handwriting Overlay", Step.key "SpatialHash",
   Step.key "curvespoints"]

/-- plist_page_count (note.c lines 294-308): resolve the curvespoints
data (an absent array behaves as an empty one), take the maximum
y-coordinate starting from 0, and return (int)(max / page_height) + 1. -/
def plist_page_count (objects : List Plist) (page_height : ℚ) : ℤ :=
  let curves := (plist_access_scalars objects 10 curvesSteps).getD []
  c_int_trunc (curvesMaxY curves 0 / page_height) + 1

/-- Synthetic node table holding a curvespoints data node at the path
plist_page_count resolves. -/
def mkCurvesTable (cs : List ℚ) : List Plist :=
  [Plist.str "$null",
   Plist.str "$null",
   Plist.dict [("Handwriting Overlay",
     Plist.dict [("SpatialHash",
       Plist.dict [("curvespoints", Plist.data cs)])])]]

theorem ite_gt_eq_max (y m : ℚ) : (if y > m then y else m) = max m y := by
  rcases le_or_lt y m with hle | hlt
  · rw [if_neg (not_lt_of_le hle), max_eq_left hle]
  · rw [if_pos hlt, max_eq_right hlt.le]

theorem foldr_max_shift (ys : List ℚ) (m y : ℚ) :
    ys.foldr max (max m y) = max y (ys.foldr max m) := by
  induction ys with
  | nil => simpa using max_comm m y
  | cons a ys ih =>
    simp only [List.foldr_cons, ih]
    rw [max_left_comm]

theorem curvesMaxY_flatten (pts : List (ℚ × ℚ)) :
    ∀ m : ℚ, curvesMaxY (pts.flatMap fun p => [p.1, p.2]) m =
      (pts.map Prod.snd).foldr max m := by
  induction pts with
  | nil => intro m; rfl
  | cons p rest ih =>
    intro m
    have hstep : curvesMaxY ((p :: rest).flatMap fun q => [q.1, q.2]) m =
        curvesMaxY (rest.flatMap fun q => [q.1, q.2]) (if p.2 > m then p.2 else m) := rfl
    rw [hstep, ite_gt_eq_max, ih, List.map_cons, List.foldr_cons, foldr_max_shift]

theorem foldr_max_nonneg (ys : List ℚ) : 0 ≤ ys.foldr max 0 := by
  induction ys with
  | nil => simp
  | cons a ys ih => exact le_trans ih (le_max_right a _)

theorem trunc_eq_floor (q : ℚ) (hq : 0 ≤ q) : c_int_trunc q = ⌊q⌋ := by
  have hnum : 0 ≤ q.num := Rat.num_nonneg.mpr hq
  have hden : (0 : ℤ) ≤ (q.den : ℤ) := Int.ofNat_nonneg q.den
  rw [c_int_trunc, Int.tdiv_eq_ediv hnum hden, Rat.floor_def]

/-- Claim C5, counterexample: a single ink point with negative
y-coordinate (x = 0, y = -100) and page height 100.  The code returns
page count 1 because its running maximum starts at 0, while the claimed
formula floor(max_y / h) + 1 evaluates to 0 at that document. -/
theorem c5_counterexample :
    plist_page_count (mkCurvesTable [0, -100]) 100 = 1 ∧
      (⌊((-100 : ℚ)) / 100⌋ + 1 : ℤ) = 0 := by
  constructor
  · have h1 : plist_page_count (mkCurvesTable [0, -100]) 100 =
        c_int_trunc ((0 : ℚ) / 100) + 1 := rfl
    rw [h1, zero_div]
    rfl
  · norm_num

/-- Claim C5 as amended: for page height h > 0 the page count equals
floor(max(0, max_y) / h) + 1, where the maximum runs over the
y-coordinates of the ink points and over the initial accumulator 0 (so an
absent or empty ink array gives 1), and the page count is always at least
1. -/
theorem c5_amended (pts : List (ℚ × ℚ)) (h : ℚ) (hh : 0 < h) :
    plist_page_count (mkCurvesTable (pts.flatMap fun p => [p.1, p.2])) h =
      ⌊((pts.map Prod.snd).foldr max 0) / h⌋ + 1 ∧
    1 ≤ plist_page_count (mkCurvesTable (pts.flatMap fun p => [p.1, p.2])) h := by
  have hacc : plist_page_count (mkCurvesTable (pts.flatMap fun p => [p.1, p.2])) h =
      c_int_trunc (curvesMaxY (pts.flatMap fun p => [p.1, p.2]) 0 / h) + 1 := rfl
  have hmax := curvesMaxY_flatten pts 0
  have hM : 0 ≤ (pts.map Prod.snd).foldr max 0 := foldr_max_nonneg _
  have hq : 0 ≤ (pts.map Prod.snd).foldr max 0 / h := div_nonneg hM hh.le
  constructor
  · rw [hacc, hmax, trunc_eq_floor _ hq]
  · rw [hacc, hmax, trunc_eq_floor _ hq]
    have := Int.floor_nonneg.mpr hq
    omega

/-- Claim C5 witness for the amended statement: two ink points with
maximal y-coordinate 250 and page height 100 give page count 3. -/
theorem c5_witness :
    plist_page_count (mkCurvesTable ([((0 : ℚ), (250 : ℚ)), (5, 30)].flatMap
        fun p => [p.1, p.2])) 100 =
      ⌊(([((0 : ℚ), (250 : ℚ)), (5, 30)].map Prod.snd).foldr max 0) / 100⌋ + 1 ∧
    1 ≤ plist_page_count (mkCurvesTable ([((0 : ℚ), (250 : ℚ)), (5, 30)].flatMap
        fun p => [p.1, p.2])) 100 :=
  c5_amended [((0 : ℚ), (250 : ℚ)), (5, 30)] 100 (by norm_num)

/-- A primitive command sent to the drawing backend (cairo and pango). -/
inductive DrawCmd where
  | setColor (r g b a : ℚ)
  | setLineWidth (w : ℚ)
  | moveTo (x y : ℚ)
  | lineTo (x y : ℚ)
  | stroke
  | paintImage (x y w h : ℚ)
  | setSourceRgb (r g b : ℚ)
  | showLayout (text : List Char) (fontName : String) (fontSize : ℤ)
deriving DecidableEq

/-- Per-page state built by note_page_init (note.c lines 525-541): the
vertical slice of the document canvas owned by the page.  The C fields
are named start and end; end is a reserved word here. -/
structure NotePage where
  pstart : ℚ
  pend : ℚ
deriving DecidableEq

/-- note_page_init for page number n of a document with the given page
height: start = height * n, end = height * (n + 1) (note.c lines
536-537). -/
def note_page_init (height : ℚ) (number : ℕ) : NotePage :=
  ⟨height * number, height * (number + 1)⟩

/-- The window test applied to one ink point before emitting a move-to or
line-to (note.c lines 931 and 936): y >= start AND y <= end, inclusive at
both ends. -/
def strokePointTest (ps pe y : ℚ) : Bool :=
  decide (y ≥ ps) && decide (y ≤ pe)

/-- The inner point loop of one stroke (note.c lines 935-937): walk k
point pairs from flat position j, emitting a line-to for every point
whose y-coordinate passes the window test. -/
def lineTosGo (ps pe : ℚ) (curves : List ℚ) : ℕ → ℕ → List DrawCmd
  | _, 0 => []
  | j, k + 1 =>
    (if strokePointTest ps pe (curves.getD (j + 1) 0) then
      [DrawCmd.lineTo (curves.getD j 0) (curves.getD (j + 1) 0 - ps)]
    else []) ++ lineTosGo ps pe curves (j + 2) k

/-- One iteration of the stroke loop (note.c lines 921-940): set the
RGBA color from four bytes each divided by 255, set the line width, emit
a move-to for the first point if its y passes the window test, then the
line-to loop over all n points, then stroke. -/
def strokeOne (ps pe : ℚ) (curves : List ℚ) (w : ℚ) (c0 c1 c2 c3 : ℕ) (pos n : ℕ) :
    List DrawCmd :=
  [DrawCmd.setColor (((c0 % 256 : ℕ) : ℚ) / 255) (((c1 % 256 : ℕ) : ℚ) / 255)
      (((c2 % 256 : ℕ) : ℚ) / 255) (((c3 % 256 : ℕ) : ℚ) / 255),
   DrawCmd.setLineWidth w]
  ++ (if strokePointTest ps pe (curves.getD (pos + 1) 0) then
        [DrawCmd.moveTo (curves.getD pos 0) (curves.getD (pos + 1) 0 - ps)]
      else [])
  ++ lineTosGo ps pe curves pos n
  ++ [DrawCmd.stroke]

/-- The stroke loop of note_page_render_cairo (note.c lines 918-941):
iterate over the per-stroke count array with loop index i and running
flat cursor pos; pos advances by 2 * count after every stroke,
unconditionally. -/
def renderStrokesGo (ps pe : ℚ) (curves widths : List ℚ) (colors : List ℕ) :
    List ℕ → ℕ → ℕ → List DrawCmd
  | [], _, _ => []
  | n :: rest, i, pos =>
    strokeOne ps pe curves (widths.getD i 0) (colors.getD (4 * i) 0)
        (colors.getD (4 * i + 1) 0) (colors.getD (4 * i + 2) 0)
        (colors.getD (4 * i + 3) 0) pos n
      ++ renderStrokesGo ps pe curves widths colors rest (i + 1) (pos + n * 2)

/-- Stroke rendering of a whole page window from the four decoded backing
arrays: points, per-stroke point counts, widths, colors. -/
def note_render_strokes (ps pe : ℚ) (curves : List ℚ) (nums : List ℕ)
    (widths : List ℚ) (colors : List ℕ) : List DrawCmd :=
  renderStrokesGo ps pe curves widths colors nums 0 0

/-- Claim C2, counterexample: with page height 100 the point (0, 100)
lies exactly on the boundary between page 0 (window 0 to 100) and page 1
(window 100 to 200).  The claim says it renders only on page 1; the code
window test is inclusive at both ends, so the point receives a line-to on
page 0 as well as on page 1. -/
theorem c2_counterexample :
    DrawCmd.lineTo 0 100 ∈ note_render_strokes 0 100 [0, 100] [1] [1] [0, 0, 0, 255] ∧
    DrawCmd.lineTo 0 0 ∈ note_render_strokes 100 200 [0, 100] [1] [1] [0, 0, 0, 255] := by
  constructor <;>
    norm_num [note_render_strokes, renderStrokesGo, strokeOne, lineTosGo, strokePointTest]

theorem strokePointTest_iff (ps pe y : ℚ) :
    strokePointTest ps pe y = true ↔ (ps ≤ y ∧ y ≤ pe) := by
  simp [strokePointTest, ge_iff_le]

/-- Claim C2 as amended: the window test of the ink renderer is inclusive
at both ends, so a point whose y-coordinate equals h * (n + 1) — the
boundary between pages n and n + 1 — receives a line-to on page n and on
page n + 1, and on no other page.  In the concrete scenario of the claim
(h = 100, y = 100) the point therefore renders on page 0 as well as on
page 1. -/
theorem c2_amended (h : ℚ) (hh : 0 < h) (n m : ℕ) (x : ℚ) :
    (DrawCmd.lineTo x (h * ((n : ℚ) + 1) - (note_page_init h m).pstart) ∈
        note_render_strokes (note_page_init h m).pstart (note_page_init h m).pend
          [x, h * ((n : ℚ) + 1)] [1] [1] [0, 0, 0, 0]) ↔ (m = n ∨ m = n + 1) := by
  have hps : (note_page_init h m).pstart = h * (m : ℚ) := rfl
  have hpe : (note_page_init h m).pend = h * ((m : ℚ) + 1) := rfl
  rw [hps, hpe]
  have harith : ((h * (m : ℚ) ≤ h * ((n : ℚ) + 1)) ∧
      (h * ((n : ℚ) + 1) ≤ h * ((m : ℚ) + 1))) ↔ (m = n ∨ m = n + 1) := by
    rw [mul_le_mul_left hh, mul_le_mul_left hh]
    constructor
    · rintro ⟨h1, h2⟩
      have h1n : m ≤ n + 1 := by exact_mod_cast h1
      have h2n : n + 1 ≤ m + 1 := by exact_mod_cast h2
      omega
    · rintro (rfl | rfl)
      · exact ⟨by exact_mod_cast Nat.le_succ m, by norm_num⟩
      · exact ⟨by norm_num, by push_cast; linarith⟩
  rw [← harith, ← strokePointTest_iff]
  by_cases hT : strokePointTest (h * (m : ℚ)) (h * ((m : ℚ) + 1)) (h * ((n : ℚ) + 1)) = true
  · rw [hT]
    simp only [iff_true]
    simp [note_render_strokes, renderStrokesGo, strokeOne, lineTosGo, hT,
      List.getD_cons_zero, List.getD_cons_succ]
  · rw [Bool.not_eq_true] at hT
    rw [hT]
    simp only [Bool.false_eq_true, iff_false]
    simp [note_render_strokes, renderStrokesGo, strokeOne, lineTosGo, hT,
      List.getD_cons_zero, List.getD_cons_succ]

/-- Claim C2 witness: the concrete boundary scenario with h = 100, n = 0,
page m = 1. -/
theorem c2_witness :
    (DrawCmd.lineTo 0 (100 * (((0 : ℕ) : ℚ) + 1) - (note_page_init 100 1).pstart) ∈
        note_render_strokes (note_page_init 100 1).pstart (note_page_init 100 1).pend
          [0, 100 * (((0 : ℕ) : ℚ) + 1)] [1] [1] [0, 0, 0, 0]) ↔ (1 = 0 ∨ 1 = 0 + 1) :=
  c2_amended 100 (by norm_num) 0 1 0

/-- Claim C6: in the stroke loop the running cursor pos advances by
pointCounts[i] * 2 after every stroke whether or not any of its points
passed the window test, so the loop state just before processing stroke i
is always (index i, cursor 2 * sum of the first i point counts): the full
run decomposes as the commands of the first i strokes followed by the
remaining run started at that cursor. -/
theorem c6_cursor_alignment (ps pe : ℚ) (curves widths : List ℚ) (colors : List ℕ)
    (nums : List ℕ) (i : ℕ) (hi : i ≤ nums.length) :
    ∃ pre : List DrawCmd,
      renderStrokesGo ps pe curves widths colors nums 0 0 =
        pre ++ renderStrokesGo ps pe curves widths colors (nums.drop i) i
          (2 * (nums.take i).sum) := by
  induction i with
  | zero => exact ⟨[], by simp⟩
  | succ i ih =>
    have hi' : i < nums.length := by omega
    obtain ⟨pre, hpre⟩ := ih (by omega)
    have hdrop : nums.drop i = nums[i] :: nums.drop (i + 1) :=
      List.drop_eq_getElem_cons hi'
    have hstep : renderStrokesGo ps pe curves widths colors (nums.drop i) i
        (2 * (nums.take i).sum) =
      strokeOne ps pe curves (widths.getD i 0) (colors.getD (4 * i) 0)
          (colors.getD (4 * i + 1) 0) (colors.getD (4 * i + 2) 0)
          (colors.getD (4 * i + 3) 0) (2 * (nums.take i).sum) nums[i]
        ++ renderStrokesGo ps pe curves widths colors (nums.drop (i + 1)) (i + 1)
          (2 * (nums.take i).sum + nums[i] * 2) := by
      rw [hdrop]
      simp only [renderStrokesGo]
    have hsum : 2 * (nums.take i).sum + nums[i] * 2 = 2 * (nums.take (i + 1)).sum := by
      rw [List.sum_take_succ nums i hi']
      ring
    refine ⟨pre ++ strokeOne ps pe curves (widths.getD i 0) (colors.getD (4 * i) 0)
        (colors.getD (4 * i + 1) 0) (colors.getD (4 * i + 2) 0)
        (colors.getD (4 * i + 3) 0) (2 * (nums.take i).sum) nums[i], ?_⟩
    rw [hpre, hstep, hsum, List.append_assoc]

/-- Claim C6 witness: a two-stroke set, checked before stroke 1, where
the first stroke is entirely outside the page window. -/
theorem c6_witness :
    ∃ pre : List DrawCmd,
      renderStrokesGo 0 10 [0, 50, 1, 50, 2, 3] [1, 2] [0, 0, 0, 255, 9, 9, 9, 255]
          [2, 1] 0 0 =
        pre ++ renderStrokesGo 0 10 [0, 50, 1, 50, 2, 3] [1, 2] [0, 0, 0, 255, 9, 9, 9, 255]
          ([2, 1].drop 1) 1 (2 * ([2, 1].take 1).sum) :=
  c6_cursor_alignment 0 10 [0, 50, 1, 50, 2, 3] [1, 2] [0, 0, 0, 255, 9, 9, 9, 255]
    [2, 1] 1 (by decide)

/-- Fields of an ImageMediaObject once its plist lookups are done
(note.c lines 556-584): the imageIsMissing flag, the parsed
documentContentOrigin and unscaledContentSize tuples, the saveAsJPEG
flag, and flags recording whether the external zip read and the external
image decode succeed (lines 589-606). -/
structure ImageObject where
  imageIsMissing : Bool
  x : ℚ
  y : ℚ
  width : ℚ
  height : ℚ
  saveAsJPEG : Bool
  dataOk : Bool
  surfaceOk : Bool
deriving DecidableEq

/-- note_page_render_image_object (note.c lines 550-614): skip when the
image is marked missing; skip when the vertical extent is not entirely
inside the page window (y < start or y + height > end, lines 574-575);
report and skip when the zip member or the decoded surface is invalid;
otherwise paint the scaled image at (x, y - start).  Returns the emitted
commands and the logged messages. -/
def note_page_render_image_object (pg : NotePage) (o : ImageObject) :
    List DrawCmd × List String :=
  if o.imageIsMissing then ([], [])
  else if o.y < pg.pstart ∨ o.y + o.height > pg.pend then ([], [])
  else if o.dataOk = false then ([], ["Invalid media object in zip"])
  else if o.surfaceOk = false then ([], ["Invalid surface from png stream"])
  else ([DrawCmd.paintImage o.x (o.y - pg.pstart) o.width o.height], [])

/-- One sub-range of a text store with its resolved attributes
(note.c lines 678-716): character range, font name and truncated font
size, the line count reported back by the external layout engine, and
the RGBA color. -/
structure SubRange where
  rStart : ℕ
  rLen : ℕ
  fontName : String
  fontSize : ℤ
  lineCount : ℕ
  red : ℚ
  green : ℚ
  blue : ℚ
  alpha : ℚ
deriving DecidableEq

/-- note_page_render_text_sub_range (note.c lines 698-715): move to
(x, y - start + font_size / 2) with C integer division, set the source
color, draw the laid-out substring, and return the advance height
line_count * font_size. -/
def note_page_render_text_sub_range (pg : NotePage) (d : List Char) (sr : SubRange)
    (x y : ℚ) : List DrawCmd × ℤ :=
  ([DrawCmd.moveTo x (y - pg.pstart + ((sr.fontSize.tdiv 2 : ℤ) : ℚ)),
    DrawCmd.setSourceRgb sr.red sr.green sr.blue,
    DrawCmd.showLayout ((d.drop sr.rStart).take sr.rLen) sr.fontName sr.fontSize],
   (sr.lineCount : ℤ) * sr.fontSize)

/-- A text store with its backing character data and its sub-range list;
none models a failed resolution of the respective plist path
(note.c lines 725-737). -/
structure TextStore where
  backing : Option (List Char)
  subRanges : Option (List SubRange)
deriving DecidableEq

/-- The sub-range loop of note_page_render_text_store (note.c lines
741-796): render each sub-range at the running vertical cursor and
advance the cursor by the returned height. -/
def textStoreGo (pg : NotePage) (d : List Char) : List SubRange → ℚ → ℚ → List DrawCmd
  | [], _, _ => []
  | sr :: rest, x, y =>
    (note_page_render_text_sub_range pg d sr x y).1 ++
      textStoreGo pg d rest x (y + ((note_page_render_text_sub_range pg d sr x y).2 : ℚ))

/-- note_page_render_text_store (note.c lines 718-797): silently skip
when the backing data is absent or empty or when the sub-range array is
not an array; otherwise run the sub-range loop from the origin. -/
def note_page_render_text_store (pg : NotePage) (ts : TextStore) (x y : ℚ) :
    List DrawCmd :=
  match ts.backing with
  | none => []
  | some d =>
    if d.isEmpty then []
    else
      match ts.subRanges with
      | none => []
      | some srs => textStoreGo pg d srs x y

/-- Fields of a TextBlockMediaObject (note.c lines 799-824): parsed
origin and size tuples plus the referenced text store. -/
structure TextObject where
  x : ℚ
  y : ℚ
  width : ℚ
  height : ℚ
  textStore : TextStore
deriving DecidableEq

/-- note_page_render_text_object (note.c lines 799-824): skip when the
vertical extent is not entirely inside the page window (lines 817-818),
otherwise render the referenced text store at the block origin. -/
def note_page_render_text_object (pg : NotePage) (o : TextObject) : List DrawCmd :=
  if o.y < pg.pstart ∨ o.y + o.height > pg.pend then []
  else note_page_render_text_store pg o.textStore o.x o.y

/-- A media object after its $classname dispatch (note.c lines 826-844):
image, text block, or an unknown class tag. -/
inductive MediaObject where
  | image : ImageObject → MediaObject
  | textBlock : TextObject → MediaObject
  | unknown : String → MediaObject
deriving DecidableEq

/-- note_page_render_object (note.c lines 826-844): dispatch on the
class name; an unknown tag is reported and draws nothing. -/
def note_page_render_object (pg : NotePage) : MediaObject → List DrawCmd × List String
  | .image o => note_page_render_image_object pg o
  | .textBlock o => (note_page_render_text_object pg o, [])
  | .unknown tag => ([], ["Unknown media object type " ++ tag])

/-- The zathura error codes returned by the plugin entry points. -/
inductive ZathuraError where
  | ok
  | unknown
  | outOfMemory
  | notImplemented
  | invalidArguments
deriving DecidableEq

/-- The handwriting overlay dict with its four stroke backing data
members as fetched by plist_dict_get_data (note.c lines 896-912), each
already viewed through the cast the C code applies to the raw bytes:
curvespoints as floats, curvesnumpoints as unsigned ints, curveswidth as
floats, curvescolors as bytes.  none models an absent member (the dict
item missing or not a data node); some [] models a present but empty
data buffer. -/
structure SpatialHash where
  curvespoints : Option (List ℚ)
  curvesnumpoints : Option (List ℕ)
  curveswidth : Option (List ℚ)
  curvescolors : Option (List ℕ)
deriving DecidableEq

/-- An absent pointer or a zero length: the two disjuncts the C presence
check tests per array (note.c lines 914-915). -/
def absentOrEmpty {α : Type} (o : Option (List α)) : Bool :=
  match o with
  | none => true
  | some l => l.isEmpty

/-- The combined presence check of note.c lines 914-916: skip stroke
rendering when any of the four backing arrays is absent or empty. -/
def strokeArraysIncomplete (ov : SpatialHash) : Bool :=
  absentOrEmpty ov.curvespoints || absentOrEmpty ov.curvesnumpoints ||
    absentOrEmpty ov.curvescolors || absentOrEmpty ov.curveswidth

/-- The per-document state note_document_t carries into rendering: page
size, the global text store at table index 2, the resolved media object
list, and the handwriting overlay (none models
plist_handwriting_overlay failing its dict check, note.c lines
272-283). -/
structure NoteDocument where
  width : ℚ
  height : ℚ
  globalTextStore : TextStore
  mediaObjects : List MediaObject
  overlay : Option SpatialHash
deriving DecidableEq

/-- note_page_render_objects (note.c lines 847-873): render the global
text store at the page origin, then every media object in order.  The C
function returns void: failures inside only log, they cannot produce an
error value. -/
def note_page_render_objects (doc : NoteDocument) (pg : NotePage) :
    List DrawCmd × List String :=
  doc.mediaObjects.foldl
    (fun acc m =>
      let r := note_page_render_object pg m
      (acc.1 ++ r.1, acc.2 ++ r.2))
    (note_page_render_text_store pg doc.globalTextStore 0 0, [])

/-- note_page_render_cairo (note.c lines 875-944): fail fast with
NOT_IMPLEMENTED for printing; otherwise render the media objects, then
fetch the handwriting overlay (an invalid overlay logs and returns OK),
then check the four stroke backing arrays (any absent or empty array
returns OK silently), and finally run the stroke loop.  Every branch
after the printing check returns OK.  Result: error code, emitted
drawing commands, logged messages. -/
def note_page_render_cairo (doc : NoteDocument) (pg : NotePage) (printing : Bool) :
    ZathuraError × List DrawCmd × List String :=
  if printing then (ZathuraError.notImplemented, [], [])
  else
    let obj := note_page_render_objects doc pg
    match doc.overlay with
    | none => (ZathuraError.ok, obj.1, obj.2 ++ ["Invalid handwriting overlay"])
    | some ov =>
      if strokeArraysIncomplete ov then (ZathuraError.ok, obj.1, obj.2)
      else
        (ZathuraError.ok,
         obj.1 ++ note_render_strokes pg.pstart pg.pend (ov.curvespoints.getD [])
           (ov.curvesnumpoints.getD []) (ov.curveswidth.getD [])
           (ov.curvescolors.getD []),
         obj.2)

/-- The deallocation steps of note_document_free, observable as
actions. -/
inductive FreeAction where
  | closeZip
  | freeRootName
deriving DecidableEq

/-- note_document_free (note.c lines 512-523): a NULL data pointer
returns OK immediately with no deallocation; otherwise the zip handle is
closed and the root name freed, and the function returns OK. -/
def note_document_free (d : Option NoteDocument) : ZathuraError × List FreeAction :=
  match d with
  | none => (ZathuraError.ok, [])
  | some _ => (ZathuraError.ok, [FreeAction.closeZip, FreeAction.freeRootName])

/-- Claim C3: a sized media object (image or text block) is drawn on a
page only if its whole vertical extent lies inside the page window
(start <= y and y + height <= end); consequently an object that strictly
straddles a page boundary H * k is drawn on no page at all. -/
theorem c3_sized_object_window :
    (∀ (pg : NotePage) (o : ImageObject),
        (note_page_render_image_object pg o).1 ≠ [] →
        pg.pstart ≤ o.y ∧ o.y + o.height ≤ pg.pend) ∧
    (∀ (pg : NotePage) (o : TextObject),
        note_page_render_text_object pg o ≠ [] →
        pg.pstart ≤ o.y ∧ o.y + o.height ≤ pg.pend) ∧
    (∀ (H : ℚ) (k : ℕ) (o : ImageObject), 0 < H →
        o.y < H * k → H * k < o.y + o.height →
        ∀ n : ℕ, (note_page_render_image_object (note_page_init H n) o).1 = []) ∧
    (∀ (H : ℚ) (k : ℕ) (o : TextObject), 0 < H →
        o.y < H * k → H * k < o.y + o.height →
        ∀ n : ℕ, note_page_render_text_object (note_page_init H n) o = []) := by
  have harith : ∀ (H : ℚ) (k n : ℕ) (y hgt : ℚ), 0 < H →
      y < H * k → H * k < y + hgt →
      ¬(H * (n : ℚ) ≤ y ∧ y + hgt ≤ H * ((n : ℚ) + 1)) := by
    intro H k n y hgt hH hlo hhi ⟨ha, hb⟩
    have h1 : H * (n : ℚ) < H * (k : ℚ) := lt_of_le_of_lt ha hlo
    have h2 : H * (k : ℚ) < H * ((n : ℚ) + 1) := lt_of_lt_of_le hhi hb
    have h1n : (n : ℚ) < (k : ℚ) := (mul_lt_mul_left hH).mp h1
    have h2n : (k : ℚ) < (n : ℚ) + 1 := (mul_lt_mul_left hH).mp h2
    have h1m : n < k := by exact_mod_cast h1n
    have h2m : k < n + 1 := by exact_mod_cast h2n
    omega
  refine ⟨?_, ?_, ?_, ?_⟩
  · intro pg o hne
    unfold note_page_render_image_object at hne
    split_ifs at hne with h1 h2 h3 h4
    · simp at hne
    · simp at hne
    · simp at hne
    · simp at hne
    · push_neg at h2
      exact h2
  · intro pg o hne
    unfold note_page_render_text_object at hne
    split_ifs at hne with h1
    · simp at hne
    · push_neg at h1
      exact h1
  · intro H k o hH hlo hhi n
    unfold note_page_render_image_object
    split_ifs with h1 h2 h3 h4 <;> try rfl
    exfalso
    push_neg at h2
    refine harith H k n o.y o.height hH hlo hhi ?_
    simpa [note_page_init] using h2
  · intro H k o hH hlo hhi n
    unfold note_page_render_text_object
    split_ifs with h1
    · rfl
    · exfalso
      push_neg at h1
      refine harith H k n o.y o.height hH hlo hhi ?_
      simpa [note_page_init] using h1

/-- Claim C3 witness: an image and a text block fully inside the page
window of page 0, and an image and a text block straddling the boundary
at y = 100 and hence drawn on page 1 not at all. -/
theorem c3_witness :
    ((NotePage.mk 0 100).pstart ≤ (0 : ℚ) ∧ (0 : ℚ) + 50 ≤ (NotePage.mk 0 100).pend) ∧
    ((NotePage.mk 0 100).pstart ≤ (0 : ℚ) ∧ (0 : ℚ) + 50 ≤ (NotePage.mk 0 100).pend) ∧
    (note_page_render_image_object (note_page_init 100 1)
        (ImageObject.mk false 0 50 10 100 false true true)).1 = [] ∧
    note_page_render_text_object (note_page_init 100 1)
        (TextObject.mk 0 50 10 100
          (TextStore.mk (some ['a']) (some [SubRange.mk 0 1 "Helvetica" 12 1 0 0 0 1]))) = [] :=
  ⟨(c3_sized_object_window.1 (NotePage.mk 0 100)
      (ImageObject.mk false 0 0 10 50 false true true)
      (by norm_num [note_page_render_image_object])),
   (c3_sized_object_window.2.1 (NotePage.mk 0 100)
      (TextObject.mk 0 0 10 50
        (TextStore.mk (some ['a']) (some [SubRange.mk 0 1 "Helvetica" 12 1 0 0 0 1])))
      (by norm_num [note_page_render_text_object, note_page_render_text_store,
        textStoreGo, note_page_render_text_sub_range, List.cons_ne_nil])),
   (c3_sized_object_window.2.2.1 100 1
      (ImageObject.mk false 0 50 10 100 false true true) (by norm_num)
      (by norm_num) (by norm_num) 1),
   (c3_sized_object_window.2.2.2 100 1
      (TextObject.mk 0 50 10 100
        (TextStore.mk (some ['a']) (some [SubRange.mk 0 1 "Helvetica" 12 1 0 0 0 1])))
      (by norm_num) (by norm_num) (by norm_num) 1)⟩

/-- Document used by the stroke-array consistency counterexample: valid
overlay, curvespoints present, the other three arrays absent. -/
def c7doc : NoteDocument :=
  ⟨500, 650, ⟨none, none⟩, [],
    some ⟨some [0, 0], none, none, none⟩⟩

/-- Claim C7, counterexample: when some but not all of the four stroke
backing arrays are present the code skips stroke rendering silently:
the render returns OK having emitted no drawing command and logged no
message, whereas the claim requires the inconsistency to be reported. -/
theorem c7_counterexample :
    note_page_render_cairo c7doc (NotePage.mk 0 650) false =
      (ZathuraError.ok, [], []) := rfl

/-- Claim C7 as amended: if any of the four stroke backing arrays is
absent or empty — in particular when all four are, and also when some
but not all are present — stroke rendering contributes no drawing
command and no log message, the render returns OK, and the media and
text content of the page is exactly what note_page_render_objects
produces, unaffected. -/
theorem c7_amended (doc : NoteDocument) (pg : NotePage) (ov : SpatialHash)
    (hov : doc.overlay = some ov) (hinc : strokeArraysIncomplete ov = true) :
    note_page_render_cairo doc pg false =
      (ZathuraError.ok, (note_page_render_objects doc pg).1,
        (note_page_render_objects doc pg).2) := by
  simp [note_page_render_cairo, hov, hinc]

/-- Claim C7 witness: a document whose overlay carries no array at all
(the empty stroke set). -/
theorem c7_witness :
    note_page_render_cairo
        (NoteDocument.mk 500 650 (TextStore.mk none none) []
          (some (SpatialHash.mk none none none none)))
        (NotePage.mk 0 650) false =
      (ZathuraError.ok,
        (note_page_render_objects
          (NoteDocument.mk 500 650 (TextStore.mk none none) []
            (some (SpatialHash.mk none none none none)))
          (NotePage.mk 0 650)).1,
        (note_page_render_objects
          (NoteDocument.mk 500 650 (TextStore.mk none none) []
            (some (SpatialHash.mk none none none none)))
          (NotePage.mk 0 650)).2) :=
  c7_amended _ _ (SpatialHash.mk none none none none) rfl rfl

/-- Claim C8: rendering with printing = true fails fast: the render
returns NOT_IMPLEMENTED before emitting any drawing command or log, for
every document and page; the model is a pure function of the document,
so a printing call cannot influence any later render. -/
theorem c8_printing_fails_fast (doc : NoteDocument) (pg : NotePage) :
    note_page_render_cairo doc pg true = (ZathuraError.notImplemented, [], []) := rfl

/-- Claim C9: with printing = false the render returns OK for every
document and page; a missing overlay, incomplete stroke arrays, unknown
media classes, failed image loads and failed text resolutions all
degrade inside the command and log streams and never change the returned
error code. -/
theorem c9_render_always_ok (doc : NoteDocument) (pg : NotePage) :
    (note_page_render_cairo doc pg false).1 = ZathuraError.ok := by
  cases hov : doc.overlay with
  | none => simp [note_page_render_cairo, hov]
  | some ov =>
    by_cases hinc : strokeArraysIncomplete ov = true <;>
      simp [note_page_render_cairo, hov, hinc]

/-- Claim C10: note_document_free returns OK with no deallocation when
the internal data pointer is NULL, and returns OK for every input. -/
theorem c10_document_free_ok :
    note_document_free none = (ZathuraError.ok, []) ∧
    ∀ d : Option NoteDocument, (note_document_free d).1 = ZathuraError.ok := by
  refine ⟨rfl, fun d => ?_⟩
  cases d <;> rfl
